import Mathlib

/-!
# Verification of the PACEmaker schematic core (`pacemaker.py`)

A shallow embedding of the timeline-visualization core of `pacemaker.py`:
the time parser `parse_time_to_hours`, the promoter classifier, the
per-arm timeline builder and the row-assignment/scene step of
`generate_pace_schematic`, together with theorems settling the spec's
claims about them.

Modelling conventions:
* Python floats are modelled as exact rationals (`ℚ`); "within
  floating-point tolerance" in the spec becomes exact equality here.
* Python `datetime` values are modelled as `PyDatetime`: a timezone
  awareness flag plus an instant in seconds (POSIX seconds for aware
  values, wall-clock seconds from the same epoch for naive values).
  Subtracting a naive from an aware datetime (or vice versa) raises
  `TypeError` in Python; the embedding routes that case to the same
  fallback branch as a parse failure, exactly as the bare `except` in
  `parse_time_to_hours` does.
* `datetime.fromisoformat` is modelled on the canonical ISO-8601 subset
  `YYYY-MM-DD[THH:MM:SS[±HH:MM]]` (the formats accepted by every Python
  version the code can run on); digit characters are modelled as ASCII
  `0-9`.
* Dictionaries are modelled as insertion-ordered association lists,
  matching Python's ordered `dict`.
-/

/-- Python's substring test `needle in haystack` on character lists. -/
def list_contains_infix (n : List Char) : List Char → Bool
  | [] => n.isEmpty
  | c :: t => n.isPrefixOf (c :: t) || list_contains_infix n t

/-- Python's substring test `needle in haystack` for strings. -/
def pyIn (needle haystack : String) : Bool :=
  list_contains_infix needle.toList haystack.toList

/-- Python's `str.isdigit` (modelled on ASCII digits): non-empty and all digits. -/
def py_isdigit (s : String) : Bool :=
  !s.toList.isEmpty && s.toList.all Char.isDigit

/-- `time_str.replace('.', '').replace('-', '')` — single-character
`str.replace` with an empty replacement removes every occurrence. -/
def strip_dots_minus (s : String) : String :=
  String.mk ((s.toList.filter (fun c => c ≠ '.')).filter (fun c => c ≠ '-'))

/-- `time_str.replace('Z', '+00:00')`: every `'Z'` is replaced. -/
def replace_Z (s : String) : String :=
  String.mk (s.toList.foldr
    (fun c acc => if c = 'Z' then '+' :: '0' :: '0' :: ':' :: '0' :: '0' :: acc else c :: acc)
    [])

/-- The Zulu normalization at the top of the `try` block:
`if time_str.endswith('Z'): time_str = time_str.replace('Z', '+00:00')`. -/
def znorm (s : String) : String :=
  if s.toList.getLast? = some 'Z' then replace_Z s else s

/-- Split a character list into its leading ASCII-digit run and the rest. -/
def span_digits : List Char → List Char × List Char
  | [] => ([], [])
  | c :: t =>
    if c.isDigit then (c :: (span_digits t).1, (span_digits t).2)
    else ([], c :: t)

/-- Numeric value of a list of ASCII digit characters (most significant first). -/
def nat_of_digits (l : List Char) : ℕ :=
  l.foldl (fun a c => 10 * a + (c.toNat - 48)) 0

/-- Unsigned part of Python's `float(...)` literal grammar restricted to
digits and at most one dot: `digits`, `digits.`, `.digits`, `digits.digits`. -/
def py_float_body (l : List Char) : Option ℚ :=
  if (span_digits l).2 = [] then
    if (span_digits l).1.isEmpty then none else some (nat_of_digits (span_digits l).1)
  else if (span_digits l).2.head? = some '.' then
    if (span_digits l).2.tail.all Char.isDigit
        && !((span_digits l).1.isEmpty && (span_digits l).2.tail.isEmpty) then
      some ((nat_of_digits (span_digits l).1 : ℚ)
        + (nat_of_digits (span_digits l).2.tail : ℚ) / (10 : ℚ) ^ (span_digits l).2.tail.length)
    else none
  else none

/-- Python's `float(s)` on the strings the fallback guard can let through
(an optional leading minus, then digits with at most one dot). -/
def py_float (s : String) : Option ℚ :=
  if s.toList.head? = some '-' then (py_float_body s.toList.tail).map (fun q => -q)
  else py_float_body s.toList

/-- A Python `datetime`: timezone-awareness flag plus the instant in
seconds (POSIX seconds when aware, wall-clock seconds otherwise). -/
structure PyDatetime where
  aware : Bool
  seconds : ℚ
deriving DecidableEq

/-- Two-digit numeral value. -/
def d2 (a b : Char) : ℕ := 10 * (a.toNat - 48) + (b.toNat - 48)

/-- Four-digit numeral value. -/
def d4 (a b c d : Char) : ℕ :=
  1000 * (a.toNat - 48) + 100 * (b.toNat - 48) + 10 * (c.toNat - 48) + (d.toNat - 48)

/-- Gregorian leap-year test, as `datetime` uses. -/
def is_leap (y : ℕ) : Bool := (y % 4 = 0 && y % 100 ≠ 0) || y % 400 = 0

/-- Days in a month of the proleptic Gregorian calendar. -/
def days_in_month (y m : ℕ) : ℕ :=
  if m = 2 then (if is_leap y then 29 else 28)
  else if m = 4 || m = 6 || m = 9 || m = 11 then 30
  else 31

/-- Days from 1970-01-01 to the given civil date (valid for year ≥ 1);
the standard days-from-civil computation on the proleptic Gregorian
calendar, as `datetime.timestamp` arithmetic yields. -/
def days_from_civil (y m d : ℕ) : ℤ :=
  let yy : ℕ := if m ≤ 2 then y - 1 else y
  let era : ℕ := yy / 400
  let yoe : ℕ := yy - era * 400
  let mp : ℕ := if 2 < m then m - 3 else m + 9
  let doy : ℕ := (153 * mp + 2) / 5 + (d - 1)
  let doe : ℕ := yoe * 365 + yoe / 4 - yoe / 100 + doy
  (era : ℤ) * 146097 + (doe : ℤ) - 719468

/-- Parse a trailing UTC-offset suffix `±HH:MM`; returns the offset in seconds. -/
def parse_tz (l : List Char) : Option ℚ :=
  match l with
  | [sg, h1, h2, c, m1, m2] =>
    if (sg = '+' || sg = '-') && c = ':' && [h1, h2, m1, m2].all Char.isDigit then
      let oh := d2 h1 h2
      let om := d2 m1 m2
      if oh ≤ 23 && om ≤ 59 then
        some ((if sg = '-' then (-1 : ℚ) else 1) * ((oh : ℚ) * 3600 + (om : ℚ) * 60))
      else none
    else none
  | _ => none

/-- Parse a clock time `HH:MM:SS` prefix; returns seconds past midnight
and the unconsumed remainder. -/
def parse_hms (l : List Char) : Option (ℕ × List Char) :=
  match l with
  | h1 :: h2 :: ':' :: m1 :: m2 :: ':' :: s1 :: s2 :: rest =>
    if [h1, h2, m1, m2, s1, s2].all Char.isDigit then
      let hh := d2 h1 h2
      let mm := d2 m1 m2
      let ss := d2 s1 s2
      if hh ≤ 23 && mm ≤ 59 && ss ≤ 59 then some (hh * 3600 + mm * 60 + ss, rest)
      else none
    else none
  | _ => none

/-- `datetime.fromisoformat` on the canonical subset
`YYYY-MM-DD[THH:MM:SS[±HH:MM]]`: a date-only or offset-free result is
naive; an explicit offset yields an aware instant (offset subtracted to
reach UTC). -/
def fromisoformat (s : String) : Option PyDatetime :=
  match s.toList with
  | y1 :: y2 :: y3 :: y4 :: '-' :: m1 :: m2 :: '-' :: e1 :: e2 :: rest =>
    if [y1, y2, y3, y4, m1, m2, e1, e2].all Char.isDigit then
      let y := d4 y1 y2 y3 y4
      let mo := d2 m1 m2
      let dy := d2 e1 e2
      if 1 ≤ y && 1 ≤ mo && mo ≤ 12 && 1 ≤ dy && dy ≤ days_in_month y mo then
        let dsec : ℚ := (days_from_civil y mo dy : ℚ) * 86400
        match rest with
        | [] => some ⟨false, dsec⟩
        | 'T' :: tl =>
          match parse_hms tl with
          | some (tsec, rest2) =>
            match rest2 with
            | [] => some ⟨false, dsec + (tsec : ℚ)⟩
            | _ =>
              match parse_tz rest2 with
              | some off => some ⟨true, dsec + (tsec : ℚ) - off⟩
              | none => none
          | none => none
        | _ => none
      else none
    else none
  | _ => none

/-- The `except` branch of `parse_time_to_hours`:
`return float(time_str) if time_str.replace('.', '').replace('-', '').isdigit() else 0`,
with a second `except` returning 0 when `float` itself raises. -/
def try_float_fallback (s : String) : ℚ :=
  if py_isdigit (strip_dots_minus s) then
    match py_float s with
    | some v => v
    | none => 0
  else 0

/-- `parse_time_to_hours(time_str, base_time)` from `generate_pace_schematic`:
empty input returns 0; otherwise the Zulu suffix is normalized, the string
is parsed as a datetime and the clamped hour difference
`max(0, (dt - base_time).total_seconds() / 3600)` is returned; any failure
(unparseable string, or the naive/aware subtraction `TypeError`) falls back
to the bare-float interpretation guarded by the digits/dot/minus test. -/
def parse_time_to_hours (time_str : String) (base_time : PyDatetime) : ℚ :=
  if time_str = "" then 0
  else
    match fromisoformat (znorm time_str) with
    | some dt =>
      if dt.aware = base_time.aware then
        max 0 ((dt.seconds - base_time.seconds) / 3600)
      else try_float_fallback (znorm time_str)
    | none => try_float_fallback (znorm time_str)

/-- An experimental arm record. Only the key set of the `arms` dict is read
by `generate_pace_schematic`; the record fields are carried for fidelity. -/
structure Arm where
  arm_id : String
  label : String
  description : String
  status : String
deriving DecidableEq

/-- A selection-circuit record, as read by the schematic routine:
`circuit_data.get("type", "")` and `circuit_data.get("stepping_stones", [])`.
The source key `"type"` is a Lean keyword, so the field is named `ctype`.
(`stepping_stones` is read into `stepping_stones_circuit` but never used.) -/
structure SelectionCircuit where
  id : String
  ctype : String
  stepping_stones : List String
deriving DecidableEq

/-- A segment's `selection_design` sub-dict. -/
structure SelectionDesign where
  selection_circuit_id : String
  stepping_stones : List String
deriving DecidableEq

/-- A segment record, with the fields `generate_pace_schematic` reads via
`.get` (a missing `end_time` is the `.get` default `""`). -/
structure Segment where
  segment_id : String
  mode : String
  applied_to_arms : List String
  start_time : String
  end_time : String
  selection_design : SelectionDesign
deriving DecidableEq

/-- The `campaign` sub-document, restricted to the keys the schematic
routine reads. Dicts are insertion-ordered association lists. -/
structure Campaign where
  arms : List (String × Arm)
  segments : List Segment
  selection_circuits : List (String × SelectionCircuit)
deriving DecidableEq

/-- First-match association-list lookup: Python `dict[key]` access order. -/
def alist_find {α : Type} (l : List (String × α)) (k : String) : Option α :=
  match l with
  | [] => none
  | (k1, v) :: t => if k1 = k then some v else alist_find t k

/-- `campaign_data.get("selection_circuits", {}).get(selection_circuit, {})`
followed by `.get("type", "")`: a missing circuit yields the empty type string. -/
def circuit_type_of (c : Campaign) (selection_circuit : String) : String :=
  match alist_find c.selection_circuits selection_circuit with
  | some circ => circ.ctype
  | none => ""

/-- `color_map.get(promoter_type, color_map["default"])` over the literal
`color_map` dict of `generate_pace_schematic`. -/
def color_map_get (p : String) : String :=
  if p = "T7/T3" then "#ff6b6b"
  else if p = "T3" then "#ff7f0e"
  else if p = "T3/final" then "#9acd32"
  else if p = "T7/SP6" then "#4ecdc4"
  else if p = "SP6" then "#2ca02c"
  else if p = "SP6/final" then "#20b2aa"
  else if p = "final" then "#32cd32"
  else if p = "default" then "#9467bd"
  else "#9467bd"

/-- The promoter-classification block of `generate_pace_schematic`
(lines 324-342): `promoter_type` starts as `"default"`; the whole
match chain runs only under `if selection_circuit:` **and**
`if stepping_stones:` — with an empty stepping-stone list nothing is
ever matched. Inside, first match wins: first stone containing `"T3"`,
first stone containing `"SP6"`, then circuit type/id containing `"T3"`,
`"SP6"`, `"T7"`. -/
def promoter_type_of (c : Campaign) (seg : Segment) : String :=
  let selection_circuit := seg.selection_design.selection_circuit_id
  let stepping_stones := seg.selection_design.stepping_stones
  if selection_circuit ≠ "" then
    let circuit_type := circuit_type_of c selection_circuit
    match stepping_stones with
    | [] => "default"
    | s0 :: _ =>
      if pyIn "T3" s0 then "T7/T3"
      else if pyIn "SP6" s0 then "T7/SP6"
      else if pyIn "T3" circuit_type || pyIn "T3" selection_circuit then "T3"
      else if pyIn "SP6" circuit_type || pyIn "SP6" selection_circuit then "SP6"
      else if pyIn "T7" circuit_type || pyIn "T7" selection_circuit then "T7/T3"
      else "default"
  else "default"

/-- A derived per-arm layout entry (the dict appended to `arm_data[arm_id]`).
The source key `"end"` is a Lean keyword, so the field is named `endh`. -/
structure SegmentLayout where
  segment : String
  promoter : String
  mode : String
  start : ℚ
  endh : ℚ
  color : String
  stepping_stones : List String
deriving DecidableEq

/-- The per-segment part of the timeline builder (lines 344-351 plus the
entry dict of lines 357-365): resolve start/end hours against `now`
(the ambient `datetime.now(timezone.utc)`, modelled as an explicit aware
instant), substitute `start + 72` for a missing end time or whenever
`end_hours <= start_hours`, classify the promoter and pick its color. -/
def layout_entry_of (c : Campaign) (now : ℚ) (seg : Segment) : SegmentLayout :=
  let base : PyDatetime := ⟨true, now⟩
  let start_hours := parse_time_to_hours seg.start_time base
  let end_hours0 :=
    if seg.end_time ≠ "" then parse_time_to_hours seg.end_time base else start_hours + 72
  let end_hours := if end_hours0 ≤ start_hours then start_hours + 72 else end_hours0
  let promoter := promoter_type_of c seg
  { segment := seg.segment_id
    promoter := promoter
    mode := seg.mode
    start := start_hours
    endh := end_hours
    color := color_map_get promoter
    stepping_stones := seg.selection_design.stepping_stones }

/-- The per-arm bucket map `arm_data`, insertion-ordered. -/
def ArmData : Type := List (String × List SegmentLayout)

/-- `arm_data[arm_id]` with the missing-bucket default `[]`. -/
def bucket (m : ArmData) (k : String) : List SegmentLayout :=
  match alist_find m k with
  | some l => l
  | none => []

/-- `if arm_id not in arm_data: arm_data[arm_id] = []` followed by
`arm_data[arm_id].append(entry)`: create the bucket on first reference
(at the end, preserving dict insertion order), then append. -/
def add_entry (m : ArmData) (k : String) (v : SegmentLayout) : ArmData :=
  match m with
  | [] => [(k, [v])]
  | (k1, vs) :: t => if k1 = k then (k1, vs ++ [v]) :: t else (k1, vs) :: add_entry t k v

/-- The `for arm_id in arms:` fan-out loop of one segment (lines 353-365);
the appended entry dict is the same for every listed arm. -/
def process_segment (c : Campaign) (now : ℚ) (m : ArmData) (seg : Segment) : ArmData :=
  seg.applied_to_arms.foldl (fun m1 arm_id => add_entry m1 arm_id (layout_entry_of c now seg)) m

/-- The whole `for segment in campaign_data.get("segments", []):` loop:
build `arm_data` from an empty dict, in document order. -/
def build_arm_data (c : Campaign) (now : ℚ) : ArmData :=
  c.segments.foldl (process_segment c now) []

/-- `sorted(arm_data.keys())`: Python's lexicographic (code-point) string
sort, modelled by insertion sort under `≤` on `String`. -/
def sort_keys (l : List String) : List String :=
  List.insertionSort (fun a b => a ≤ b) l

/-- One iteration of the row-assignment loop (lines 374-378):
`if arm_id not in y_positions: y_positions[arm_id] = current_y; current_y += 1`. -/
def y_step (acc : List (String × ℕ) × ℕ) (arm_id : String) : List (String × ℕ) × ℕ :=
  if (acc.1.map Prod.fst).contains arm_id then acc
  else (acc.1 ++ [(arm_id, acc.2)], acc.2 + 1)

/-- The row-assignment loop (lines 368-380): walk the sorted arm ids and
give each unseen id the next row index, starting from 0. -/
def build_y_positions (sorted_arms : List String) : List (String × ℕ) × ℕ :=
  sorted_arms.foldl y_step ([], 0)

/-- Python `max` of a non-empty list (buckets are never empty when read). -/
def list_max (l : List ℚ) : ℚ :=
  match l with
  | [] => 0
  | h :: t => t.foldl max h

/-- `max([max([seg["end"] for seg in arm_segments]) for arm_segments in
arm_data.values()]) if arm_data else 200` (line 461). -/
def scene_max_time (m : ArmData) : ℚ :=
  match m.map (fun b => list_max (b.2.map SegmentLayout.endh)) with
  | [] => 200
  | h :: t => t.foldl max h

/-- The scene description distilled from the figure `generate_pace_schematic`
returns: the per-arm layout map, the row assignment, and the global
maximum end-hours used for the time axis. -/
structure Scene where
  arm_data : List (String × List SegmentLayout)
  y_positions : List (String × ℕ)
  max_time : ℚ
deriving DecidableEq

/-- `generate_pace_schematic(campaign_data)`: `None` (the "nothing to
render" sentinel) iff the `arms` dict or the `segments` list is empty
(line 264); otherwise the timeline is built and laid out into a scene.
`now` is the ambient `datetime.now(timezone.utc)` read inside the routine,
passed explicitly here. -/
def generate_pace_schematic (c : Campaign) (now : ℚ) : Option Scene :=
  if c.arms = [] ∨ c.segments = [] then none
  else
    let arm_data := build_arm_data c now
    let sorted_arms := sort_keys (arm_data.map Prod.fst)
    some { arm_data := arm_data
           y_positions := (build_y_positions sorted_arms).1
           max_time := scene_max_time arm_data }

def c9_campaign : Campaign :=
  { arms := [("b", ⟨"b", "B", "", "active"⟩), ("a", ⟨"a", "A", "", "active"⟩)]
    segments :=
      [ { segment_id := "seg-b", mode := "PACE", applied_to_arms := ["b"],
          start_time := "5", end_time := "", selection_design := ⟨"", []⟩ },
        { segment_id := "seg-a", mode := "PACE", applied_to_arms := ["a"],
          start_time := "100", end_time := "110", selection_design := ⟨"", []⟩ } ]
    selection_circuits := [] }

def c1_campaign : Campaign :=
  { arms := [("arm-1", ⟨"arm-1", "", "", "active"⟩)]
    segments :=
      [ { segment_id := "seg-1", mode := "PACE", applied_to_arms := ["arm-1"],
          start_time := "0", end_time := "", selection_design := ⟨"sel-T3-x", []⟩ } ]
    selection_circuits := [("sel-T3-x", ⟨"sel-T3-x", "RNAP_T3", []⟩)] }

def c1_segment : Segment :=
  { segment_id := "seg-1", mode := "PACE", applied_to_arms := ["arm-1"],
    start_time := "0", end_time := "", selection_design := ⟨"sel-T3-x", []⟩ }

def c2_campaign : Campaign :=
  { arms := [("arm-1", ⟨"arm-1", "", "", "active"⟩)]
    segments :=
      [ { segment_id := "seg-1", mode := "PACE", applied_to_arms := [],
          start_time := "0", end_time := "", selection_design := ⟨"", []⟩ } ]
    selection_circuits := [] }

theorem toList_mk (l : List Char) : (String.mk l).toList = l := rfl

theorem span_digits_eq_append (l : List Char) :
    l = (span_digits l).1 ++ (span_digits l).2 := by
  induction l with
  | nil => rfl
  | cons c t ih =>
    unfold span_digits
    by_cases h : c.isDigit = true
    · simp only [h, if_pos]
      simpa using ih
    · simp [h]

theorem span_digits_all_digit (l : List Char) :
    ∀ c ∈ (span_digits l).1, c.isDigit = true := by
  induction l with
  | nil => intro c hc; simp [span_digits] at hc
  | cons c t ih =>
    intro d hd
    unfold span_digits at hd
    by_cases h : c.isDigit = true
    · simp only [h, if_pos] at hd
      rcases List.mem_cons.mp hd with h1 | h1
      · exact h1 ▸ h
      · exact ih d h1
    · simp [h] at hd

theorem span_digits_fst_mem {l : List Char} {c : Char} (hc : c ∈ (span_digits l).1) :
    c ∈ l := by
  rw [span_digits_eq_append l]
  exact List.mem_append_left _ hc

theorem py_float_body_has_digit {l : List Char} {v : ℚ} (h : py_float_body l = some v) :
    ∃ c ∈ l, c.isDigit = true := by
  unfold py_float_body at h
  rcases hrest : (span_digits l).2 with _ | ⟨c0, frac⟩
  · rw [hrest] at h
    by_cases he : (span_digits l).1.isEmpty = true
    · simp [he] at h
    · have hne : (span_digits l).1 ≠ [] := by
        intro hz; rw [hz] at he; simp at he
      rcases List.exists_mem_of_ne_nil _ hne with ⟨c, hc⟩
      exact ⟨c, span_digits_fst_mem hc, span_digits_all_digit l c hc⟩
  · rw [hrest] at h
    by_cases hdot : c0 = '.'
    · subst hdot
      rw [if_neg (List.cons_ne_nil '.' frac),
        if_pos (show ('.' :: frac).head? = some '.' from rfl), List.tail_cons] at h
      by_cases hfd : frac.all Char.isDigit = true
      · by_cases he : (span_digits l).1.isEmpty = true
        · by_cases hfe : frac.isEmpty = true
          · simp [hfd, he, hfe] at h
          · have hfne : frac ≠ [] := by
              intro hz; rw [hz] at hfe; simp at hfe
            rcases List.exists_mem_of_ne_nil _ hfne with ⟨c, hc⟩
            refine ⟨c, ?_, by simpa using List.all_eq_true.mp hfd c hc⟩
            rw [span_digits_eq_append l, hrest]
            exact List.mem_append_right _ (List.mem_cons_of_mem _ hc)
        · have hne1 : (span_digits l).1 ≠ [] := by
            intro hz; rw [hz] at he; simp at he
          rcases List.exists_mem_of_ne_nil _ hne1 with ⟨c, hc⟩
          exact ⟨c, span_digits_fst_mem hc, span_digits_all_digit l c hc⟩
      · simp [hfd] at h
    · simp [hdot] at h

theorem py_float_has_digit {s : String} {v : ℚ} (h : py_float s = some v) :
    ∃ c ∈ s.toList, c.isDigit = true := by
  unfold py_float at h
  by_cases hh : s.toList.head? = some '-'
  · rw [if_pos hh] at h
    rcases Option.map_eq_some'.mp h with ⟨w, hw, _⟩
    rcases py_float_body_has_digit hw with ⟨c, hc, hcd⟩
    refine ⟨c, ?_, hcd⟩
    exact List.mem_of_mem_tail hc
  · rw [if_neg hh] at h
    exact py_float_body_has_digit h

theorem getLast?_mem_of_eq_some {l : List Char} {a : Char} (h : l.getLast? = some a) :
    a ∈ l := by
  induction l with
  | nil => simp at h
  | cons c t ih =>
    cases t with
    | nil =>
      simp only [List.getLast?_singleton, Option.some.injEq] at h
      simp [h]
    | cons d u =>
      rw [List.getLast?_cons_cons] at h
      exact List.mem_cons_of_mem _ (ih h)

theorem znorm_eq_self {s : String} (h : ∀ c ∈ s.toList, c ≠ 'Z') : znorm s = s := by
  unfold znorm
  rcases hz : s.toList.getLast? with _ | c
  · simp
  · by_cases hc : c = 'Z'
    · exact absurd hc (h c (getLast?_mem_of_eq_some hz))
    · simp [hc]

theorem try_float_fallback_neg {s : String} (h : try_float_fallback s < 0) :
    py_float s = some (try_float_fallback s) := by
  unfold try_float_fallback at h ⊢
  by_cases hg : py_isdigit (strip_dots_minus s) = true
  · rw [if_pos hg] at h ⊢
    rcases hp : py_float s with _ | v
    · simp [hp] at h
    · rfl
  · rw [if_neg hg] at h; exact absurd h (lt_irrefl 0)

/-- C3 counterexample: the input "-5" (with an arbitrary aware reference)
makes the time parser return -5, a negative hour offset, refuting the
claim that every input yields a non-negative offset. -/
theorem claim_C3_counterexample :
    parse_time_to_hours "-5" ⟨true, 0⟩ = -5 ∧
    ¬ (0 ≤ parse_time_to_hours "-5" ⟨true, 0⟩) := by
  have h : parse_time_to_hours "-5" ⟨true, 0⟩ = -5 := by with_unfolding_all rfl
  refine ⟨h, ?_⟩
  rw [h]
  norm_num

/-- C3 (amended): the time parser returns a non-negative hour offset in
the empty-string, date-time and failure branches; a negative result can
arise only from the numeric fallback, i.e. whenever the result is
negative it is exactly the unclamped `float` value of the (Zulu-normalized)
input string. -/
theorem claim_C3_amended (s : String) (base : PyDatetime)
    (h : parse_time_to_hours s base < 0) :
    py_float (znorm s) = some (parse_time_to_hours s base) := by
  by_cases hs : s = ""
  · rw [hs] at h
    norm_num [parse_time_to_hours] at h
  · unfold parse_time_to_hours at h ⊢
    rw [if_neg hs] at h ⊢
    rcases hf : fromisoformat (znorm s) with _ | dt
    · rw [hf] at h
      dsimp only at h ⊢
      exact try_float_fallback_neg h
    · rw [hf] at h
      dsimp only at h ⊢
      by_cases ha : dt.aware = base.aware
      · rw [if_pos ha] at h
        exact absurd h (not_lt.mpr (le_max_left 0 _))
      · rw [if_neg ha] at h ⊢
        exact try_float_fallback_neg h

/-- C3 witness: the amended theorem applied at the concrete negative
input "-5". -/
theorem claim_C3_witness :
    parse_time_to_hours "-5" ⟨true, 3600⟩ < 0 ∧
    py_float (znorm "-5") = some (parse_time_to_hours "-5" ⟨true, 3600⟩) := by
  have h : parse_time_to_hours "-5" ⟨true, 3600⟩ < 0 := by
    rw [show parse_time_to_hours "-5" ⟨true, 3600⟩ = -5 from by with_unfolding_all rfl]
    norm_num
  exact ⟨h, claim_C3_amended "-5" ⟨true, 3600⟩ h⟩

/-- C4 (confirmed): a string that fails the date-time parse, consists
solely of digit/dot/minus characters and parses as a float is returned
unclamped and independently of the reference instant. -/
theorem claim_C4 (s : String) (v : ℚ) (base : PyDatetime)
    (hchars : ∀ c ∈ s.toList, c.isDigit = true ∨ c = '.' ∨ c = '-')
    (hiso : fromisoformat s = none)
    (hfloat : py_float s = some v) :
    parse_time_to_hours s base = v := by
  have hdig := py_float_has_digit hfloat
  have hs : s ≠ "" := by
    intro hz
    rcases hdig with ⟨c, hc, _⟩
    rw [hz] at hc
    have he : ("" : String).toList = [] := rfl
    rw [he] at hc
    simp at hc
  have hzn : znorm s = s := by
    apply znorm_eq_self
    intro c hc he
    rcases hchars c hc with h1 | h1 | h1
    · rw [he] at h1; exact absurd h1 (by decide)
    · rw [he] at h1; exact absurd h1 (by decide)
    · rw [he] at h1; exact absurd h1 (by decide)
  have hguard : py_isdigit (strip_dots_minus s) = true := by
    rcases hdig with ⟨c, hc, hcd⟩
    have hcne1 : c ≠ '.' := by intro he; rw [he] at hcd; exact absurd hcd (by decide)
    have hcne2 : c ≠ '-' := by intro he; rw [he] at hcd; exact absurd hcd (by decide)
    unfold py_isdigit strip_dots_minus
    rw [toList_mk, Bool.and_eq_true]
    constructor
    · have hcmem : c ∈ (s.toList.filter (fun x => x ≠ '.')).filter (fun x => x ≠ '-') := by
        simp only [List.mem_filter, decide_eq_true_eq]
        exact ⟨⟨hc, hcne1⟩, hcne2⟩
      rcases hl : (s.toList.filter (fun x => x ≠ '.')).filter (fun x => x ≠ '-') with _ | ⟨a, t⟩
      · rw [hl] at hcmem; simp at hcmem
      · simp
    · apply List.all_eq_true.mpr
      intro x hx
      simp only [List.mem_filter, decide_eq_true_eq] at hx
      rcases hchars x hx.1.1 with hh | hh | hh
      · exact hh
      · exact absurd hh hx.1.2
      · exact absurd hh hx.2
  unfold parse_time_to_hours
  rw [if_neg hs, hzn, hiso]
  dsimp only
  unfold try_float_fallback
  rw [if_pos hguard, hfloat]

/-- C4 witness: the theorem applied at the concrete inputs "42" (yielding
42 for an arbitrary reference) and "-5" (yielding -5). -/
theorem claim_C4_witness :
    fromisoformat "42" = none ∧ py_float "42" = some 42 ∧
    parse_time_to_hours "42" ⟨true, 98765⟩ = 42 ∧
    parse_time_to_hours "-5" ⟨true, 0⟩ = -5 := by
  have hi : fromisoformat "42" = none := by decide
  have hf : py_float "42" = some 42 := by with_unfolding_all rfl
  refine ⟨hi, hf, claim_C4 "42" 42 ⟨true, 98765⟩ (by decide) hi hf, ?_⟩
  exact claim_C4 "-5" (-5) ⟨true, 0⟩ (by decide) (by decide) (by with_unfolding_all rfl)

/-- C5 (amended): on the date-time branch, when the parsed instant has the
same timezone-awareness as the reference, at-or-after timestamps yield the
exact hour difference and strictly-before timestamps yield exactly 0; the
empty string also yields 0. (A parsed timestamp whose awareness differs
from the reference's — e.g. a naive timestamp against the aware render-time
reference — makes the subtraction raise and falls back, it does not reach
this branch.) -/
theorem claim_C5_amended :
    (∀ base : PyDatetime, parse_time_to_hours "" base = 0) ∧
    (∀ (s : String) (base dt : PyDatetime),
      fromisoformat (znorm s) = some dt → dt.aware = base.aware →
      ((base.seconds ≤ dt.seconds →
          parse_time_to_hours s base = (dt.seconds - base.seconds) / 3600) ∧
        (dt.seconds < base.seconds → parse_time_to_hours s base = 0))) := by
  constructor
  · intro base
    simp [parse_time_to_hours]
  · intro s base dt hp ha
    by_cases hs : s = ""
    · rw [hs] at hp
      rw [show znorm "" = "" from by decide, show fromisoformat "" = none from by decide] at hp
      exact absurd hp (by simp)
    · unfold parse_time_to_hours
      rw [if_neg hs, hp]
      dsimp only
      rw [if_pos ha]
      constructor
      · intro hle
        exact max_eq_right (div_nonneg (by linarith) (by norm_num))
      · intro hlt
        apply max_eq_left
        apply div_nonpos_of_nonpos_of_nonneg (by linarith) (by norm_num)

/-- C5 counterexample: "9999-01-01T00:00:00" is a valid ISO timestamp that
parses as a (naive) date-time far after the reference instant 0, yet the
parser returns 0 rather than the hour difference: the naive/aware
subtraction raises and the fallback yields 0. -/
theorem claim_C5_counterexample :
    fromisoformat "9999-01-01T00:00:00" = some ⟨false, 253370764800⟩ ∧
    (0 : ℚ) < 253370764800 ∧
    parse_time_to_hours "9999-01-01T00:00:00" ⟨true, 0⟩ = 0 ∧
    ((253370764800 : ℚ) - 0) / 3600 ≠ 0 := by
  refine ⟨by with_unfolding_all rfl, by norm_num, by with_unfolding_all rfl, by norm_num⟩

/-- C5 witness: the amended theorem applied at "1970-01-02T00:00:00Z"
against the aware references 0 (one day earlier: 24 hours) and 2·86400
(one day later: clamped to 0). -/
theorem claim_C5_witness :
    fromisoformat (znorm "1970-01-02T00:00:00Z") = some ⟨true, 86400⟩ ∧
    parse_time_to_hours "1970-01-02T00:00:00Z" ⟨true, 0⟩ = ((86400 : ℚ) - 0) / 3600 ∧
    parse_time_to_hours "1970-01-02T00:00:00Z" ⟨true, 2 * 86400⟩ = 0 := by
  have h1 : fromisoformat (znorm "1970-01-02T00:00:00Z") = some ⟨true, 86400⟩ := by
    with_unfolding_all rfl
  refine ⟨h1, ?_, ?_⟩
  · exact (claim_C5_amended.2 "1970-01-02T00:00:00Z" ⟨true, 0⟩ ⟨true, 86400⟩ h1 rfl).1
      (by norm_num)
  · exact (claim_C5_amended.2 "1970-01-02T00:00:00Z" ⟨true, 2 * 86400⟩ ⟨true, 86400⟩ h1 rfl).2
      (by norm_num)

/-- Total number of layout entries across all buckets of `arm_data`. -/
def arm_data_size (m : ArmData) : ℕ :=
  ((m : List (String × List SegmentLayout)).map (fun b => b.2.length)).sum

theorem bucket_nil (k : String) : bucket [] k = [] := rfl

theorem bucket_add_entry_self (m : ArmData) (k : String) (v : SegmentLayout) :
    bucket (add_entry m k v) k = bucket m k ++ [v] := by
  induction m with
  | nil =>
    show (match (if k = k then some [v] else alist_find [] k) with
      | some l => l | none => []) = _
    rw [if_pos rfl]
    rfl
  | cons p t ih =>
    obtain ⟨k1, vs⟩ := p
    show bucket (if k1 = k then (k1, vs ++ [v]) :: t else (k1, vs) :: add_entry t k v) k = _
    by_cases h : k1 = k
    · rw [if_pos h]
      show (match (if k1 = k then some (vs ++ [v]) else alist_find t k) with
        | some l => l | none => []) = _
      rw [if_pos h]
      show vs ++ [v] = (match (if k1 = k then some vs else alist_find t k) with
        | some l => l | none => []) ++ [v]
      rw [if_pos h]
    · rw [if_neg h]
      show (match (if k1 = k then some vs else alist_find (add_entry t k v) k) with
        | some l => l | none => []) = _
      rw [if_neg h]
      show bucket (add_entry t k v) k = (match (if k1 = k then some vs else alist_find t k) with
        | some l => l | none => []) ++ [v]
      rw [if_neg h]
      exact ih

theorem bucket_add_entry_ne (m : ArmData) (k : String) (v : SegmentLayout) (a : String)
    (h : a ≠ k) : bucket (add_entry m k v) a = bucket m a := by
  induction m with
  | nil =>
    show (match (if k = a then some [v] else alist_find [] a) with | some l => l | none => []) = _
    rw [if_neg (fun he => h he.symm)]
    rfl
  | cons p t ih =>
    obtain ⟨k1, vs⟩ := p
    show bucket (if k1 = k then (k1, vs ++ [v]) :: t else (k1, vs) :: add_entry t k v) a = _
    by_cases h1 : k1 = k
    · rw [if_pos h1]
      show (match (if k1 = a then some (vs ++ [v]) else alist_find t a) with
        | some l => l | none => []) = _
      rw [if_neg (h1 ▸ fun he => h he.symm)]
      show bucket t a = (match (if k1 = a then some vs else alist_find t a) with
        | some l => l | none => [])
      rw [if_neg (h1 ▸ fun he => h he.symm)]
      rfl
    · rw [if_neg h1]
      by_cases h2 : k1 = a
      · show (match (if k1 = a then some vs else alist_find (add_entry t k v) a) with
          | some l => l | none => []) = _
        rw [if_pos h2]
        show vs = (match (if k1 = a then some vs else alist_find t a) with
          | some l => l | none => [])
        rw [if_pos h2]
      · show (match (if k1 = a then some vs else alist_find (add_entry t k v) a) with
          | some l => l | none => []) = _
        rw [if_neg h2]
        show bucket (add_entry t k v) a = (match (if k1 = a then some vs else alist_find t a) with
          | some l => l | none => [])
        rw [if_neg h2]
        exact ih

theorem bucket_foldl_add (l : List String) (m : ArmData) (v : SegmentLayout) (a : String) :
    bucket (l.foldl (fun m1 k => add_entry m1 k v) m) a
      = bucket m a ++ List.replicate (l.count a) v := by
  induction l generalizing m with
  | nil => simp
  | cons b t ih =>
    rw [List.foldl_cons, ih (add_entry m b v)]
    by_cases hab : a = b
    · subst hab
      rw [bucket_add_entry_self, List.count_cons_self, List.append_assoc,
        List.singleton_append, ← List.replicate_succ]
    · rw [bucket_add_entry_ne m b v a hab, List.count_cons_of_ne hab]

theorem arm_data_size_add_entry (m : ArmData) (k : String) (v : SegmentLayout) :
    arm_data_size (add_entry m k v) = arm_data_size m + 1 := by
  induction m with
  | nil => rfl
  | cons p t ih =>
    obtain ⟨k1, vs⟩ := p
    show arm_data_size (if k1 = k then (k1, vs ++ [v]) :: t else (k1, vs) :: add_entry t k v) = _
    by_cases h : k1 = k
    · rw [if_pos h]
      show (vs ++ [v]).length + arm_data_size t = vs.length + arm_data_size t + 1
      rw [List.length_append, List.length_singleton]
      omega
    · rw [if_neg h]
      show vs.length + arm_data_size (add_entry t k v) = vs.length + arm_data_size t + 1
      rw [ih]
      omega

theorem arm_data_size_foldl_add (l : List String) (m : ArmData) (v : SegmentLayout) :
    arm_data_size (l.foldl (fun m1 k => add_entry m1 k v) m)
      = arm_data_size m + l.length := by
  induction l generalizing m with
  | nil => rfl
  | cons b t ih =>
    rw [List.foldl_cons, ih (add_entry m b v), arm_data_size_add_entry, List.length_cons]
    omega

theorem mem_keys_of_bucket_ne_nil {m : ArmData} {a : String} (h : bucket m a ≠ []) :
    a ∈ m.map Prod.fst := by
  induction m with
  | nil => exact absurd rfl h
  | cons p t ih =>
    obtain ⟨k1, vs⟩ := p
    by_cases h1 : k1 = a
    · exact h1 ▸ List.mem_cons_self _ _
    · apply List.mem_cons_of_mem
      apply ih
      intro hz
      apply h
      show (match (if k1 = a then some vs else alist_find t a) with
        | some l => l | none => []) = []
      rw [if_neg h1]
      exact hz

/-- C8 (confirmed): processing one segment appends the one shared layout
entry to the bucket of every listed arm id (and only those), growing the
total entry count by exactly the number of listed arms; every listed arm
id gets a bucket whether or not it occurs in the campaign's arms dict. -/
theorem claim_C8 (c : Campaign) (now : ℚ) (m : ArmData) (seg : Segment) :
    (∀ a : String, bucket (process_segment c now m seg) a
        = bucket m a
          ++ List.replicate (seg.applied_to_arms.count a) (layout_entry_of c now seg)) ∧
    arm_data_size (process_segment c now m seg)
      = arm_data_size m + seg.applied_to_arms.length ∧
    (∀ a ∈ seg.applied_to_arms, a ∈ (process_segment c now m seg).map Prod.fst) := by
  refine ⟨fun a => bucket_foldl_add _ _ _ _, arm_data_size_foldl_add _ _ _, fun a ha => ?_⟩
  apply mem_keys_of_bucket_ne_nil
  rw [show bucket (process_segment c now m seg) a
      = bucket m a
        ++ List.replicate (seg.applied_to_arms.count a) (layout_entry_of c now seg)
    from bucket_foldl_add _ _ _ _]
  intro hz
  rcases List.append_eq_nil.mp hz with ⟨-, h2⟩
  rw [List.replicate_eq_nil_iff] at h2
  rw [List.count_eq_zero] at h2
  exact h2 ha

/-- The layout entry appended to the arm buckets for one two-arm segment:
both buckets receive this same record. -/
def c8_entry : SegmentLayout :=
  ⟨"seg-8", "default", "PACE", 5, 77, "#9467bd", []⟩

def c8_segment : Segment :=
  { segment_id := "seg-8", mode := "PACE", applied_to_arms := ["x", "y"],
    start_time := "5", end_time := "", selection_design := ⟨"", []⟩ }

/-- C8 witness: the theorem applied to a concrete segment fanned out to
the two arms "x" and "y" (neither of which exists in the empty campaign). -/
theorem claim_C8_witness :
    bucket (process_segment ⟨[], [c8_segment], []⟩ 0 [] c8_segment) "x" = [c8_entry] ∧
    bucket (process_segment ⟨[], [c8_segment], []⟩ 0 [] c8_segment) "y" = [c8_entry] ∧
    arm_data_size (process_segment ⟨[], [c8_segment], []⟩ 0 [] c8_segment)
      = arm_data_size ([] : ArmData) + 2 ∧
    "y" ∈ (process_segment ⟨[], [c8_segment], []⟩ 0 [] c8_segment).map Prod.fst := by
  have h := claim_C8 ⟨[], [c8_segment], []⟩ 0 [] c8_segment
  refine ⟨?_, ?_, h.2.1, h.2.2 "y" (by decide)⟩
  · rw [h.1 "x"]
    with_unfolding_all rfl
  · rw [h.1 "y"]
    with_unfolding_all rfl

/-- C6 (confirmed): a missing end time, or a resolved end-hours at or
below the resolved start-hours, makes the builder substitute
`start + 72`; and the segment is still fanned out to every listed arm
(it is never rejected). -/
theorem claim_C6 (c : Campaign) (now : ℚ) (seg : Segment)
    (h : seg.end_time = "" ∨
      parse_time_to_hours seg.end_time ⟨true, now⟩
        ≤ parse_time_to_hours seg.start_time ⟨true, now⟩) :
    (layout_entry_of c now seg).endh = (layout_entry_of c now seg).start + 72 ∧
    (∀ (m : ArmData), ∀ a ∈ seg.applied_to_arms,
      bucket (process_segment c now m seg) a ≠ []) := by
  constructor
  · unfold layout_entry_of
    dsimp only
    by_cases he : seg.end_time = ""
    · rw [he]
      rw [if_neg (show ¬ ("" : String) ≠ "" from fun hn => hn rfl)]
      rw [if_neg (show ¬ (parse_time_to_hours seg.start_time ⟨true, now⟩ + 72
          ≤ parse_time_to_hours seg.start_time ⟨true, now⟩) by linarith)]
    · rcases h with h | h
      · exact absurd h he
      · rw [if_pos he, if_pos h]
  · intro m a ha
    unfold process_segment
    rw [bucket_foldl_add]
    intro hz
    rcases List.append_eq_nil.mp hz with ⟨-, h2⟩
    rw [List.replicate_eq_nil_iff, List.count_eq_zero] at h2
    exact h2 ha

def c6_segment : Segment :=
  { segment_id := "seg-6", mode := "PACE", applied_to_arms := ["arm-1"],
    start_time := "2025-01-01T00:00:00Z", end_time := "2025-01-01T00:00:00Z",
    selection_design := ⟨"", []⟩ }

/-- C6 witness: the theorem applied to a segment with equal start and end
timestamps (reference = that same instant, so start-hours is 0): the
builder substitutes end = start + 72. -/
theorem claim_C6_witness :
    (layout_entry_of ⟨[], [c6_segment], []⟩ 1735689600 c6_segment).endh
      = (layout_entry_of ⟨[], [c6_segment], []⟩ 1735689600 c6_segment).start + 72 ∧
    (layout_entry_of ⟨[], [c6_segment], []⟩ 1735689600 c6_segment).start = 0 ∧
    (layout_entry_of ⟨[], [c6_segment], []⟩ 1735689600 c6_segment).endh = 72 ∧
    bucket (process_segment ⟨[], [c6_segment], []⟩ 1735689600 [] c6_segment) "arm-1" ≠ [] := by
  have h := claim_C6 ⟨[], [c6_segment], []⟩ 1735689600 c6_segment (Or.inr (le_refl _))
  exact ⟨h.1, by with_unfolding_all rfl, by with_unfolding_all rfl,
    h.2 [] "arm-1" (by decide)⟩

/-- C7 (confirmed): an empty arms dict or an empty segments list makes the
build-schematic entry point return the "nothing to render" sentinel. -/
theorem claim_C7 (c : Campaign) (now : ℚ) (h : c.arms = [] ∨ c.segments = []) :
    generate_pace_schematic c now = none := by
  unfold generate_pace_schematic
  rw [if_pos h]

/-- C7 witness: the theorem applied to a campaign document with no arms
(and also no segments). -/
theorem claim_C7_witness :
    ((⟨[], [], []⟩ : Campaign).arms = [] ∨ (⟨[], [], []⟩ : Campaign).segments = []) ∧
    generate_pace_schematic ⟨[], [], []⟩ 0 = none :=
  ⟨Or.inl rfl, claim_C7 ⟨[], [], []⟩ 0 (Or.inl rfl)⟩

theorem layout_entry_start_lt_endh (c : Campaign) (now : ℚ) (seg : Segment) :
    (layout_entry_of c now seg).start < (layout_entry_of c now seg).endh := by
  unfold layout_entry_of
  dsimp only
  by_cases h : (if seg.end_time ≠ "" then parse_time_to_hours seg.end_time ⟨true, now⟩
      else parse_time_to_hours seg.start_time ⟨true, now⟩ + 72)
      ≤ parse_time_to_hours seg.start_time ⟨true, now⟩
  · rw [if_pos h]
    linarith
  · rw [if_neg h]
    exact not_le.mp h

theorem mem_bucket_foldl_add {l : List String} {m : ArmData} {v : SegmentLayout}
    {a : String} {e : SegmentLayout}
    (h : e ∈ bucket (l.foldl (fun m1 k => add_entry m1 k v) m) a) :
    e ∈ bucket m a ∨ e = v := by
  rw [bucket_foldl_add] at h
  rcases List.mem_append.mp h with h1 | h1
  · exact Or.inl h1
  · exact Or.inr (List.eq_of_mem_replicate h1)

theorem mem_bucket_build_aux (c : Campaign) (now : ℚ) (a : String) (e : SegmentLayout) :
    ∀ (segs : List Segment) (m : ArmData),
      e ∈ bucket (segs.foldl (process_segment c now) m) a →
      e ∈ bucket m a ∨ ∃ seg ∈ segs, e = layout_entry_of c now seg := by
  intro segs
  induction segs with
  | nil => exact fun m h => Or.inl h
  | cons sg t ih =>
    intro m h
    rw [List.foldl_cons] at h
    rcases ih (process_segment c now m sg) h with h1 | ⟨sg2, hsg2, he⟩
    · rcases mem_bucket_foldl_add h1 with h2 | h2
      · exact Or.inl h2
      · exact Or.inr ⟨sg, List.mem_cons_self _ _, h2⟩
    · exact Or.inr ⟨sg2, List.mem_cons_of_mem _ hsg2, he⟩

/-- C10 (confirmed, implicit invariant): every layout entry in any bucket
produced by the timeline builder has end-hours strictly greater than
start-hours — the 72-hour substitution fires exactly when
end-hours ≤ start-hours, so no zero-length or inverted rectangle exists. -/
theorem claim_C10 (c : Campaign) (now : ℚ) (a : String) (e : SegmentLayout)
    (h : e ∈ bucket (build_arm_data c now) a) : e.start < e.endh := by
  unfold build_arm_data at h
  rcases mem_bucket_build_aux c now a e c.segments [] h with h1 | ⟨seg, -, he⟩
  · rw [bucket_nil] at h1
    exact absurd h1 (List.not_mem_nil e)
  · rw [he]
    exact layout_entry_start_lt_endh c now seg

def c10_campaign : Campaign :=
  { arms := [("b", ⟨"b", "B", "", "active"⟩)]
    segments :=
      [ { segment_id := "seg-b", mode := "PACE", applied_to_arms := ["b"],
          start_time := "5", end_time := "", selection_design := ⟨"", []⟩ } ]
    selection_circuits := [] }

def c10_entry : SegmentLayout :=
  ⟨"seg-b", "default", "PACE", 5, 77, "#9467bd", []⟩

/-- C10 witness: the invariant applied to the concrete entry the builder
produces for arm "b" (numeric start "5", missing end ⇒ end-hours 77). -/
theorem claim_C10_witness :
    c10_entry ∈ bucket (build_arm_data c10_campaign 0) "b" ∧
    c10_entry.start < c10_entry.endh := by
  have hb : bucket (build_arm_data c10_campaign 0) "b" = [c10_entry] := by
    with_unfolding_all rfl
  have hm : c10_entry ∈ bucket (build_arm_data c10_campaign 0) "b" := by
    rw [hb]
    exact List.mem_singleton.mpr rfl
  exact ⟨hm, claim_C10 c10_campaign 0 "b" c10_entry hm⟩

theorem keys_add_entry (m : ArmData) (k : String) (v : SegmentLayout) :
    (add_entry m k v).map Prod.fst
      = if k ∈ m.map Prod.fst then m.map Prod.fst else m.map Prod.fst ++ [k] := by
  induction m with
  | nil => simp [add_entry]
  | cons p t ih =>
    obtain ⟨k1, vs⟩ := p
    show (if k1 = k then (k1, vs ++ [v]) :: t else (k1, vs) :: add_entry t k v).map Prod.fst = _
    by_cases h : k1 = k
    · subst h
      rw [if_pos rfl]
      simp
    · rw [if_neg h, List.map_cons, ih]
      by_cases h2 : k ∈ t.map Prod.fst
      · rw [if_pos h2, if_pos (by simp [h2])]
        rfl
      · rw [if_neg h2, if_neg ?_]
        · rfl
        · simp only [List.map_cons, List.mem_cons]
          rintro (he | he)
          · exact h he.symm
          · exact h2 he

theorem nodup_keys_add_entry (m : ArmData) (k : String) (v : SegmentLayout)
    (h : (m.map Prod.fst).Nodup) : ((add_entry m k v).map Prod.fst).Nodup := by
  rw [keys_add_entry]
  by_cases h2 : k ∈ m.map Prod.fst
  · rw [if_pos h2]; exact h
  · rw [if_neg h2]
    rw [List.nodup_append]
    exact ⟨h, List.nodup_singleton k, by simpa [List.disjoint_singleton] using h2⟩

theorem nodup_keys_foldl_add (l : List String) (v : SegmentLayout) :
    ∀ m : ArmData, (m.map Prod.fst).Nodup →
      ((l.foldl (fun m1 k => add_entry m1 k v) m).map Prod.fst).Nodup := by
  induction l with
  | nil => exact fun m h => h
  | cons b t ih =>
    intro m h
    rw [List.foldl_cons]
    exact ih (add_entry m b v) (nodup_keys_add_entry m b v h)

theorem nodup_keys_build_aux (c : Campaign) (now : ℚ) :
    ∀ (segs : List Segment) (m : ArmData), (m.map Prod.fst).Nodup →
      ((segs.foldl (process_segment c now) m).map Prod.fst).Nodup := by
  intro segs
  induction segs with
  | nil => exact fun m h => h
  | cons sg t ih =>
    intro m h
    rw [List.foldl_cons]
    exact ih (process_segment c now m sg) (nodup_keys_foldl_add _ _ m h)

theorem nodup_keys_build (c : Campaign) (now : ℚ) :
    ((build_arm_data c now).map Prod.fst).Nodup :=
  nodup_keys_build_aux c now c.segments [] List.nodup_nil

theorem build_y_positions_aux (l : List String) :
    ∀ (yp : List (String × ℕ)) (cy : ℕ), l.Nodup → (∀ x ∈ l, x ∉ yp.map Prod.fst) →
      l.foldl y_step (yp, cy) = (yp ++ l.zip (List.range' cy l.length), cy + l.length) := by
  induction l with
  | nil => intro yp cy _ _; simp
  | cons a t ih =>
    intro yp cy hnd hnm
    rw [List.foldl_cons]
    have hstep : y_step (yp, cy) a = (yp ++ [(a, cy)], cy + 1) := by
      unfold y_step
      rw [if_neg ?_]
      intro hcont
      exact absurd (by simpa using hcont) (hnm a (List.mem_cons_self a t))
    rw [hstep, ih (yp ++ [(a, cy)]) (cy + 1) hnd.of_cons ?side]
    case side =>
      intro x hx
      rw [List.map_append]
      intro hmem
      rcases List.mem_append.mp hmem with h1 | h1
      · exact hnm x (List.mem_cons_of_mem a hx) h1
      · have hxa : x = a := by simpa using h1
        exact (List.nodup_cons.mp hnd).1 (hxa ▸ hx)
    rw [List.length_cons, List.range'_succ, List.zip_cons_cons, List.append_assoc,
      List.singleton_append]
    simp only [Prod.mk.injEq]
    exact ⟨trivial, by omega⟩

theorem build_y_positions_eq (l : List String) (h : l.Nodup) :
    (build_y_positions l).1 = l.zip (List.range l.length) := by
  unfold build_y_positions
  rw [build_y_positions_aux l [] 0 h (by simp), List.range_eq_range']
  rfl

/-- C9 (confirmed): the rendered scene assigns row indices 0..N-1 to the
arm ids of the per-arm layout map in lexicographically sorted order. -/
theorem claim_C9 (c : Campaign) (now : ℚ) (scene : Scene)
    (h : generate_pace_schematic c now = some scene) :
    scene.y_positions
      = (sort_keys ((build_arm_data c now).map Prod.fst)).zip
          (List.range (sort_keys ((build_arm_data c now).map Prod.fst)).length) := by
  unfold generate_pace_schematic at h
  by_cases hc : c.arms = [] ∨ c.segments = []
  · rw [if_pos hc] at h
    exact absurd h (by simp)
  · rw [if_neg hc] at h
    dsimp only at h
    have hscene := (Option.some.injEq _ _).mp h
    rw [← hscene]
    have hnd : ((sort_keys ((build_arm_data c now).map Prod.fst))).Nodup :=
      ((List.perm_insertionSort (fun a b => a ≤ b) _).symm.nodup) (nodup_keys_build c now)
    exact build_y_positions_eq _ hnd

def c9_scene : Scene :=
  { arm_data := [("b", [⟨"seg-b", "default", "PACE", 5, 77, "#9467bd", []⟩]),
                 ("a", [⟨"seg-a", "default", "PACE", 100, 110, "#9467bd", []⟩])]
    y_positions := [("a", 0), ("b", 1)]
    max_time := 110 }

/-- C9 witness: the theorem applied to a campaign with arms "b" and "a"
(in that insertion order), each with one segment: arm "a" gets row 0 and
arm "b" gets row 1. -/
theorem claim_C9_witness :
    generate_pace_schematic c9_campaign 0 = some c9_scene ∧
    c9_scene.y_positions
      = (sort_keys ((build_arm_data c9_campaign 0).map Prod.fst)).zip
          (List.range (sort_keys ((build_arm_data c9_campaign 0).map Prod.fst)).length) ∧
    c9_scene.y_positions = [("a", 0), ("b", 1)] := by
  have h : generate_pace_schematic c9_campaign 0 = some c9_scene := by
    with_unfolding_all rfl
  exact ⟨h, claim_C9 c9_campaign 0 c9_scene h, rfl⟩

/-- C1 counterexample: a segment with an empty stepping-stone list whose
referenced circuit id ("sel-T3-x") is non-empty and whose circuit type
("RNAP_T3") contains "T3": the classifier returns "default", not "T3" —
the circuit-type/id checks sit inside `if stepping_stones:` and are
unreachable when the list is empty. -/
theorem claim_C1_counterexample :
    c1_segment.selection_design.stepping_stones = [] ∧
    c1_segment.selection_design.selection_circuit_id ≠ "" ∧
    pyIn "T3" (circuit_type_of c1_campaign
      c1_segment.selection_design.selection_circuit_id) = true ∧
    promoter_type_of c1_campaign c1_segment = "default" ∧
    "default" ≠ "T3" := by
  exact ⟨rfl, by decide, by decide, by decide, by decide⟩

/-- C1 (amended): the circuit-type/id fallback fires only for a segment
whose stepping-stone list is NON-empty with a first stone containing
neither "T3" nor "SP6" (and a non-empty circuit reference); then, first
match wins: "T3" in circuit type or id gives "T3", else "SP6" gives
"SP6", else "T7" gives "T7/T3". With an empty stepping-stone list the
classifier always returns "default". -/
theorem claim_C1_amended (c : Campaign) (seg : Segment) (s0 : String) (rest : List String)
    (hstones : seg.selection_design.stepping_stones = s0 :: rest)
    (hcid : seg.selection_design.selection_circuit_id ≠ "")
    (h1 : pyIn "T3" s0 = false) (h2 : pyIn "SP6" s0 = false) :
    ((pyIn "T3" (circuit_type_of c seg.selection_design.selection_circuit_id)
        || pyIn "T3" seg.selection_design.selection_circuit_id) = true →
      promoter_type_of c seg = "T3") ∧
    ((pyIn "T3" (circuit_type_of c seg.selection_design.selection_circuit_id)
        || pyIn "T3" seg.selection_design.selection_circuit_id) = false →
      (pyIn "SP6" (circuit_type_of c seg.selection_design.selection_circuit_id)
        || pyIn "SP6" seg.selection_design.selection_circuit_id) = true →
      promoter_type_of c seg = "SP6") ∧
    ((pyIn "T3" (circuit_type_of c seg.selection_design.selection_circuit_id)
        || pyIn "T3" seg.selection_design.selection_circuit_id) = false →
      (pyIn "SP6" (circuit_type_of c seg.selection_design.selection_circuit_id)
        || pyIn "SP6" seg.selection_design.selection_circuit_id) = false →
      (pyIn "T7" (circuit_type_of c seg.selection_design.selection_circuit_id)
        || pyIn "T7" seg.selection_design.selection_circuit_id) = true →
      promoter_type_of c seg = "T7/T3") ∧
    (∀ (c2 : Campaign) (seg2 : Segment), seg2.selection_design.stepping_stones = [] →
      promoter_type_of c2 seg2 = "default") := by
  refine ⟨?_, ?_, ?_, ?_⟩
  · intro h3
    simp [promoter_type_of, hstones, hcid, h1, h2, h3]
  · intro h3 h4
    simp [promoter_type_of, hstones, hcid, h1, h2, h3, h4]
  · intro h3 h4 h5
    simp [promoter_type_of, hstones, hcid, h1, h2, h3, h4, h5]
  · intro c2 seg2 hz
    simp [promoter_type_of, hz]

def c1w_campaign : Campaign :=
  { arms := [("arm-1", ⟨"arm-1", "", "", "active"⟩)]
    segments := []
    selection_circuits := [("sel-x", ⟨"sel-x", "RNAP_T3", []⟩)] }

def c1w_segment : Segment :=
  { segment_id := "seg-1", mode := "PACE", applied_to_arms := ["arm-1"],
    start_time := "0", end_time := "", selection_design := ⟨"sel-x", ["stone"]⟩ }

/-- C1 witness: the amended theorem applied to a segment with a first
stepping stone ("stone") matching neither "T3" nor "SP6" and a circuit
whose type "RNAP_T3" contains "T3": classification yields "T3". -/
theorem claim_C1_witness :
    pyIn "T3" (circuit_type_of c1w_campaign "sel-x") = true ∧
    promoter_type_of c1w_campaign c1w_segment = "T3" := by
  refine ⟨by decide, ?_⟩
  exact (claim_C1_amended c1w_campaign c1w_segment "stone" [] rfl (by decide)
    (by decide) (by decide)).1 (by decide)

/-- C2 counterexample: a campaign with a non-empty arms dict and a
non-empty segments list whose only segment applies to no arms: the
per-arm layout map is empty, yet `generate_pace_schematic` returns a
scene (with the `else 200` default time range), not the "nothing to
render" sentinel. -/
theorem claim_C2_counterexample :
    c2_campaign.arms ≠ [] ∧ c2_campaign.segments ≠ [] ∧
    build_arm_data c2_campaign 0 = [] ∧
    (generate_pace_schematic c2_campaign 0).isSome = true := by
  refine ⟨by decide, by decide, by with_unfolding_all rfl, by with_unfolding_all rfl⟩

/-- C2 (amended): the "nothing to render" sentinel is returned only for an
empty arms dict or an empty segments list; a campaign whose arms and
segments are non-empty but whose per-arm layout map is empty instead
yields a degenerate scene with no rows and the default time range 200. -/
theorem claim_C2_amended (c : Campaign) (now : ℚ)
    (ha : c.arms ≠ []) (hs : c.segments ≠ []) (hm : build_arm_data c now = []) :
    generate_pace_schematic c now = some ⟨[], [], 200⟩ := by
  unfold generate_pace_schematic
  rw [if_neg (not_or.mpr ⟨ha, hs⟩)]
  dsimp only
  rw [hm]
  rfl

/-- C2 witness: the amended theorem applied to the concrete campaign of
the counterexample. -/
theorem claim_C2_witness :
    c2_campaign.arms ≠ [] ∧ c2_campaign.segments ≠ [] ∧
    build_arm_data c2_campaign 0 = [] ∧
    generate_pace_schematic c2_campaign 0 = some ⟨[], [], 200⟩ := by
  have ha : c2_campaign.arms ≠ [] := by decide
  have hs : c2_campaign.segments ≠ [] := by decide
  have hm : build_arm_data c2_campaign 0 = [] := by with_unfolding_all rfl
  exact ⟨ha, hs, hm, claim_C2_amended c2_campaign 0 ha hs hm⟩
